import Mathlib

/-!
Shallow embedding of `src/utils.py` (CIC-IDS-2017 exploration helpers):
file discovery (`list_csv_files`, `pick_file`), bounded loading
(`load_peek`, `load_full`), column hygiene (`clean_column_names`,
`find_suspicious_columns`) and the audit routines (`basic_audit`,
`numeric_summary`).

Modelling conventions:
- A pandas DataFrame is a `Table`: a list of columns, each carrying a
  label, a storage dtype and a list of cells.  Machine floats are
  modelled as exact rationals (`ℚ`); pandas missing values (NaN used as
  a marker) are the cell `Cell.na`.
- Python strings are Lean `String`s, but the string operations used by
  the source (`strip`, `lower`, `startswith`, `in`, single-character
  `replace`) are modelled structurally on `List Char` so that they
  compute by kernel reduction.  Python `str.strip` removes whitespace
  from both ends; `str.lower` is modelled by `Char.toLower`
  (character-wise lowering, adequate for the ASCII labels involved).
- Filesystem state is explicit: a directory is `none` (does not exist)
  or `some entries`; `FileNotFoundError` becomes `Except.error
  Err.notFound` (the Python message also embeds the resolved absolute
  path, which is platform state and is not tracked here).
- `memory_usage(deep=True)` reports interpreter-level byte counts
  (memory layout); it is not modelled, and no claim concerns it.
-/

namespace LogUtils

/-! ### Python-level string primitives, modelled on `List Char` -/

/-- Python `str.strip()` on the left: drop leading whitespace. -/
def lstripChars (l : List Char) : List Char :=
  l.dropWhile Char.isWhitespace

/-- Python `str.strip()` on the right: drop trailing whitespace. -/
def rstripChars (l : List Char) : List Char :=
  (l.reverse.dropWhile Char.isWhitespace).reverse

/-- Python `str.strip()`: drop leading and trailing whitespace. -/
def stripChars (l : List Char) : List Char :=
  rstripChars (lstripChars l)

/-- Python `str.strip()` packaged on `String`. -/
def pyStrip (s : String) : String :=
  ⟨stripChars s.data⟩

/-- Pandas `.str.replace` of the U+FEFF BOM with `""` (`regex=False`):
the pattern is a single character, so the call removes every occurrence
of it. -/
def removeBomChars (l : List Char) : List Char :=
  l.filter (fun ch => ch ≠ '\uFEFF')

/-- Python `a <= b` on strings: lexicographic comparison by code point. -/
def charListLe : List Char → List Char → Bool
  | [], _ => true
  | _ :: _, [] => false
  | a :: as, b :: bs =>
    if a < b then true
    else if a = b then charListLe as bs
    else false

/-- Python `s.endswith(suffix)`, used to model the glob `*.csv`. -/
def strEndsWith (s sfx : String) : Bool :=
  sfx.data.isSuffixOf s.data

/-! ### Column labels and cells -/

/-- Python value used as a dataframe column label: a string, or some
non-text label (modelled by an integer, as produced e.g. by
`pd.DataFrame(...)` with default range columns). -/
inductive PyLabel where
  | str (s : String)
  | int (n : Int)
deriving DecidableEq

/-- Python `str(label)`: every label has a total text representation. -/
def PyLabel.chars : PyLabel → List Char
  | .str s => s.data
  | .int n => (toString n).data

/-- Python `isinstance(label, str)`. -/
def PyLabel.isText : PyLabel → Bool
  | .str _ => true
  | .int _ => false

/-- A single dataframe cell: missing (NaN/None), a numeric value
(machine floats modelled as exact rationals), or text. -/
inductive Cell where
  | na
  | num (q : ℚ)
  | text (s : String)
deriving DecidableEq

/-- Pandas storage dtype of a column, as far as the source consumes it:
`select_dtypes(include=[np.number])` and
`select_dtypes(include=["object"])`. -/
inductive Dtype where
  | int64
  | float64
  | obj
deriving DecidableEq

/-- Membership of a dtype in `np.number`. -/
def Dtype.isNumeric : Dtype → Bool
  | .int64 => true
  | .float64 => true
  | .obj => false

/-- One dataframe column: label, dtype, and the cells top to bottom. -/
structure Col where
  label : PyLabel
  dtype : Dtype
  values : List Cell
deriving DecidableEq

/-- A pandas DataFrame: an ordered list of columns.  (Pandas guarantees
all columns have the same length; `Table.WF` states that invariant.) -/
structure Table where
  cols : List Col
deriving DecidableEq

/-- Python `len(df)`: the number of rows. -/
def Table.nRows (t : Table) : Nat :=
  (t.cols.head?.map (fun c => c.values.length)).getD 0

/-- All columns of a real dataframe have the same number of cells. -/
def Table.WF (t : Table) : Prop :=
  ∀ c ∈ t.cols, c.values.length = t.nRows

/-- Row `i` of the table, as the list of cells across the columns. -/
def Table.row (t : Table) (i : Nat) : List Cell :=
  t.cols.map (fun c => c.values.getD i Cell.na)

/-- The rows of the table, top to bottom. -/
def Table.rows (t : Table) : List (List Cell) :=
  (List.range t.nRows).map t.row

/-! ### Duplicate detection (`DataFrame.duplicated` / `Index.duplicated`)

Pandas flags an element `True` when an equal element occurred earlier in
the sequence (`keep="first"`); for whole rows, NaNs compare equal, which
matches decidable equality on `Cell`. -/

/-- Scan of `duplicated()`: `seen` holds the elements already passed. -/
def dupFlagsAux {α : Type} [DecidableEq α] : List α → List α → List Bool
  | _, [] => []
  | seen, x :: xs => decide (x ∈ seen) :: dupFlagsAux (x :: seen) xs

/-- Pandas `duplicated()` flags for a sequence. -/
def duplicatedFlags {α : Type} [DecidableEq α] (l : List α) : List Bool :=
  dupFlagsAux [] l

/-- The elements of `l` selected where `duplicated()` is `True`
(`index[index.duplicated()]`). -/
def dupSelect {α : Type} [DecidableEq α] (l : List α) : List α :=
  ((l.zip (duplicatedFlags l)).filter (fun p => p.2)).map (fun p => p.1)

/-! ### File discovery -/

/-- One directory entry: file name and size in bytes (`stat().st_size`). -/
structure FileEntry where
  name : String
  size : Nat
deriving DecidableEq

/-- A directory: `none` when it does not exist on the filesystem. -/
abbrev Dir : Type := Option (List FileEntry)

/-- The error surface of the module: `FileNotFoundError`.  The Python
message also carries the resolved absolute path, which is not tracked. -/
inductive Err where
  | notFound
deriving DecidableEq

/-- Ordering of directory entries by path, as produced by Python
`sorted(dir.glob(...))` (same-directory paths compare by file name). -/
def nameLe (a b : FileEntry) : Prop :=
  charListLe a.name.data b.name.data = true

instance : DecidableRel nameLe :=
  fun a b => inferInstanceAs (Decidable (charListLe a.name.data b.name.data = true))

/-- Python `sorted(data_raw_dir.glob("*.csv"))`: the `*.csv` entries of
the directory in lexicographic order.  `Path.glob` on a directory that
does not exist yields nothing (pathlib returns an empty iterator), so a
missing directory globs to `[]`. -/
def globCsvSorted (d : Dir) : List FileEntry :=
  match d with
  | none => []
  | some es => List.insertionSort nameLe (es.filter (fun f => strEndsWith f.name ".csv"))

/-- Python `(data_raw_dir / name).exists()`. -/
def pathExists (d : Dir) (name : String) : Bool :=
  match d with
  | none => false
  | some es => es.any (fun f => f.name = name)

/-- Python `round(x, 2)` (round-half-to-even on the second decimal;
exact rationals stand in for the machine floats of the source). -/
def roundHalfEven (q : ℚ) : ℤ :=
  if q - ⌊q⌋ < 1 / 2 then ⌊q⌋
  else if q - ⌊q⌋ > 1 / 2 then ⌊q⌋ + 1
  else if 2 ∣ ⌊q⌋ then ⌊q⌋ else ⌊q⌋ + 1

/-- Round a rational to 2 decimal places. -/
def round2 (q : ℚ) : ℚ :=
  (roundHalfEven (100 * q) : ℚ) / 100

/-- One row of the listing returned by `list_csv_files`: file name and
size in megabytes (`bytes / 1024**2`, rounded to 2 decimals). -/
structure FileRow where
  file : String
  size_mb : ℚ
deriving DecidableEq

/-- Source `list_csv_files`: discover CSV files and return a table of
names and sizes, failing when the directory is missing or holds no CSV. -/
def list_csv_files (data_raw_dir : Dir) : Except Err (List FileRow) :=
  match data_raw_dir with
  | none => .error .notFound
  | some es =>
    let csv_files := List.insertionSort nameLe (es.filter (fun f => strEndsWith f.name ".csv"))
    if csv_files = [] then .error .notFound
    else .ok (csv_files.map (fun f => ⟨f.name, round2 ((f.size : ℚ) / (1024 : ℚ) ^ 2)⟩))

/-- Source `pick_file`: return `dir/preferred_name` when the argument is
truthy (a non-empty string) and that path exists, else the first CSV in
lexicographic order; fail when no CSV is discovered (which subsumes a
missing directory, since globbing it yields nothing).  The result is the
chosen file's name within the directory. -/
def pick_file (data_raw_dir : Dir) (preferred_name : Option String) : Except Err String :=
  match globCsvSorted data_raw_dir with
  | [] => .error .notFound
  | f :: _ =>
    match preferred_name with
    | some p => if p ≠ "" ∧ pathExists data_raw_dir p then .ok p else .ok f.name
    | none => .ok f.name

/-! ### Loading -/

/-- A CSV file on disk, after delimited-text parsing: the header cells
and the data rows (each a list of field strings). -/
structure CsvFile where
  header : List String
  rows : List (List String)

/-- Pandas `pd.read_csv(path, nrows=n)`: keep the first `n` data rows
and build one column per header cell.  Missing trailing fields become
NaN.  (Dtype inference is not modelled; cells stay textual with dtype
`obj`, which no claim about loading depends on.) -/
def read_csv (f : CsvFile) (nrows : Option Nat) : Table :=
  let kept := match nrows with
    | none => f.rows
    | some n => f.rows.take n
  { cols := (List.range f.header.length).map (fun j =>
      { label := .str (f.header.getD j ""),
        dtype := .obj,
        values := kept.map (fun r =>
          match r.get? j with
          | some s => Cell.text s
          | none => Cell.na) }) }

/-- Pandas `df.columns = df.columns.str.strip()` on an all-text index. -/
def stripColumnNames (t : Table) : Table :=
  { cols := t.cols.map (fun c => { c with label := .str (pyStrip ⟨c.label.chars⟩) }) }

/-- Source `load_peek`: fail when the path does not exist, else parse at
most `nrows` data rows and strip whitespace from every column name. -/
def load_peek (csv_path : Option CsvFile) (nrows : Nat) : Except Err Table :=
  match csv_path with
  | none => .error .notFound
  | some f => .ok (stripColumnNames (read_csv f (some nrows)))

/-- Source `load_full`: same as `load_peek` but parsing every row. -/
def load_full (csv_path : Option CsvFile) : Except Err Table :=
  match csv_path with
  | none => .error .notFound
  | some f => .ok (stripColumnNames (read_csv f none))

/-! ### Audit -/

/-- Percentage of missing values of one column:
`df.isna().mean() * 100` per column, i.e. `null_count / row_count * 100`
(on a zero-row table pandas produces NaN; in `ℚ` division by zero gives
`0`, and the claims about missingness concern tables with rows). -/
def missingPct (n_rows : Nat) (c : Col) : ℚ :=
  100 * (((c.values.countP (fun v => v = Cell.na)) : ℚ) / (n_rows : ℚ))

/-- Descending comparison used by `sort_values(ascending=False)` on the
per-column missingness percentages. -/
def pctGe (a b : PyLabel × ℚ) : Prop :=
  b.2 ≤ a.2

instance : DecidableRel pctGe := fun a b => inferInstanceAs (Decidable (b.2 ≤ a.2))

instance : IsTotal (PyLabel × ℚ) pctGe := ⟨fun a b => le_total b.2 a.2⟩

instance : IsTrans (PyLabel × ℚ) pctGe := ⟨fun _ _ _ h1 h2 => le_trans h2 h1⟩

/-- Descending comparison on occurrence counts, used by
`value_counts()` (most frequent first). -/
def cntGe (a b : Cell × Nat) : Prop :=
  b.2 ≤ a.2

instance : DecidableRel cntGe := fun a b => inferInstanceAs (Decidable (b.2 ≤ a.2))

/-- Pandas `Series.value_counts()`: occurrence count of every distinct
non-missing value, most frequent first. -/
def value_counts (vs : List Cell) : List (Cell × Nat) :=
  let present := vs.filter (fun v => !decide (v = Cell.na))
  List.insertionSort cntGe (present.dedup.map (fun v => (v, present.count v)))

/-- Source dataclass `AuditResult`.  `memory_mb` (interpreter byte
accounting) is not modelled. -/
structure AuditResult where
  shape : Nat × Nat
  n_duplicates : Nat
  duplicate_rate : ℚ
  object_columns : List PyLabel
  missing_top : List (PyLabel × ℚ)
  label_counts : Option (List (Cell × Nat))
deriving DecidableEq

/-- Source `basic_audit` duplicate count: `int(df.duplicated().sum())`. -/
def n_dup_of (df : Table) : Nat :=
  (duplicatedFlags df.rows).count true

/-- Source `basic_audit` duplicate rate:
`float(n_dup / len(df)) if len(df) else 0.0`. -/
def dup_rate_of (df : Table) : ℚ :=
  if df.nRows = 0 then 0 else (n_dup_of df : ℚ) / (df.nRows : ℚ)

/-- Source `basic_audit` missingness ranking:
`(df.isna().mean() * 100).sort_values(ascending=False)`. -/
def missing_sorted_of (df : Table) : List (PyLabel × ℚ) :=
  List.insertionSort pctGe (df.cols.map (fun c => (c.label, missingPct df.nRows c)))

/-- Source `basic_audit`: compact first-pass audit of a table. -/
def basic_audit (df : Table) (label_col : String) (missing_top_k : Nat) : AuditResult :=
  { shape := (df.nRows, df.cols.length),
    n_duplicates := n_dup_of df,
    duplicate_rate := dup_rate_of df,
    object_columns := (df.cols.filter (fun c => c.dtype = Dtype.obj)).map (fun c => c.label),
    missing_top := (missing_sorted_of df).take missing_top_k,
    label_counts :=
      if df.cols.any (fun c => c.label = .str label_col) then
        some (value_counts (((df.cols.filter (fun c => c.label = .str label_col)).head?.map
          (fun c => c.values)).getD []))
      else none }

/-- Statistics row of `describe(percentiles=[0.01, 0.5, 0.99]).T`.
`count` is the number of non-missing values; the remaining statistics
are `none` exactly where pandas reports NaN.  The standard deviation is
irrational in general, so it is carried as its square `stdSq` (the
sample variance, ddof = 1), which determines it. -/
structure NumStats where
  count : Nat
  mean : Option ℚ
  stdSq : Option ℚ
  min : Option ℚ
  p01 : Option ℚ
  p50 : Option ℚ
  p99 : Option ℚ
  max : Option ℚ
deriving DecidableEq

/-- Numpy linear-interpolation quantile of a list of values. -/
def quantile (xs : List ℚ) (q : ℚ) : Option ℚ :=
  match List.insertionSort (fun a b : ℚ => a ≤ b) xs with
  | [] => none
  | y :: ys =>
    let s := y :: ys
    let pos : ℚ := q * ((s.length : ℚ) - 1)
    let i : Nat := (⌊pos⌋).toNat
    let frac : ℚ := pos - (⌊pos⌋ : ℚ)
    let xi := s.getD i y
    let xj := s.getD (i + 1) xi
    some (xi + frac * (xj - xi))

/-- The non-missing numeric values of a column. -/
def numericValues (c : Col) : List ℚ :=
  c.values.filterMap (fun v => match v with | .num q => some q | _ => none)

/-- One row of `num_df.describe(percentiles=[0.01, 0.5, 0.99]).T`. -/
def describeCol (c : Col) : NumStats :=
  let vs := numericValues c
  let n := vs.length
  let mean : Option ℚ := if n = 0 then none else some (vs.sum / (n : ℚ))
  { count := n,
    mean := mean,
    stdSq :=
      if 2 ≤ n then
        some ((vs.map (fun x => (x - vs.sum / (n : ℚ)) ^ 2)).sum / ((n : ℚ) - 1))
      else none,
    min := vs.foldr (fun x acc => match acc with
      | none => some x
      | some m => some (Min.min x m)) none,
    p01 := quantile vs (1 / 100),
    p50 := quantile vs (1 / 2),
    p99 := quantile vs (99 / 100),
    max := vs.foldr (fun x acc => match acc with
      | none => some x
      | some m => some (Max.max x m)) none }

/-- The numeric-typed columns of a table
(`df.select_dtypes(include=[np.number])`). -/
def numericCols (df : Table) : List Col :=
  df.cols.filter (fun c => c.dtype.isNumeric)

/-- Source `numeric_summary`: describe the numeric columns, one result
row per column, keeping at most the first `max_cols` rows.  Pandas
`num_df.empty` is true when either axis of the selected sub-table has
length zero, i.e. when there is no numeric column or the table has no
rows. -/
def numeric_summary (df : Table) (max_cols : Nat) : List (PyLabel × NumStats) :=
  if numericCols df = [] ∨ Table.nRows { cols := numericCols df } = 0 then []
  else ((numericCols df).map (fun c => (c.label, describeCol c))).take max_cols

/-! ### Column hygiene -/

/-- One column-name cleaning step of `clean_column_names`:
`astype(str)`, then `.str.replace("\uFEFF", "", regex=False)`, then
`.str.strip()`. -/
def cleanLabel (l : PyLabel) : PyLabel :=
  .str ⟨stripChars (removeBomChars l.chars)⟩

/-- Source `clean_column_names`: a new table (the source copies the
dataframe before assigning) whose column names are cleaned; cells and
dtypes are untouched. -/
def clean_column_names (df : Table) : Table :=
  { cols := df.cols.map (fun c => { c with label := cleanLabel c.label }) }

/-- Result of `find_suspicious_columns`. -/
structure SuspiciousColumns where
  unnamed_columns : List PyLabel
  duplicate_columns : List PyLabel
  whitespace_columns : List PyLabel
  bom_columns : List PyLabel
deriving DecidableEq

/-- Source `find_suspicious_columns`: four independent checks over the
column labels.  `str(c).lower().startswith("unnamed")` stringifies any
label, so every label takes part in the unnamed check; the whitespace
and BOM checks are guarded by `isinstance(c, str)`. -/
def find_suspicious_columns (df : Table) : SuspiciousColumns :=
  let cols := df.cols.map (fun c => c.label)
  { unnamed_columns :=
      cols.filter (fun c => List.isPrefixOf "unnamed".data (c.chars.map Char.toLower)),
    duplicate_columns := dupSelect cols,
    whitespace_columns :=
      cols.filter (fun c => match c with
        | .str s => decide (s.data ≠ stripChars s.data)
        | _ => false),
    bom_columns :=
      cols.filter (fun c => match c with
        | .str s => s.data.contains '\uFEFF'
        | _ => false) }

/-! ## Specification-side definitions and helper lemmas -/

/-- Specification-side duplicate count: the number of positions whose
element already occurs among the elements strictly before it (so the
first occurrence of a value is never counted). -/
def dupCountSpec {α : Type} [DecidableEq α] [Inhabited α] (l : List α) : Nat :=
  (List.range l.length).countP (fun i => decide (l.getD i default ∈ l.take i))

lemma dupFlagsAux_eq {α : Type} [DecidableEq α] [Inhabited α] (seen xs : List α) :
    dupFlagsAux seen xs =
      (List.range xs.length).map
        (fun i => decide (xs.getD i default ∈ seen ++ xs.take i)) := by
  induction xs generalizing seen with
  | nil => rfl
  | cons x xs ih =>
    have h2 : ((List.range xs.length).map fun i =>
        decide (xs.getD i default ∈ (x :: seen) ++ xs.take i)) =
        (List.range xs.length).map ((fun i =>
          decide ((x :: xs).getD i default ∈ seen ++ (x :: xs).take i)) ∘ Nat.succ) := by
      refine List.map_congr_left (fun i _ => ?_)
      simp only [Function.comp, List.getD_cons_succ, List.take_succ_cons]
      refine decide_eq_decide.mpr ?_
      constructor <;> intro h <;> simp only [List.mem_append, List.mem_cons] at h ⊢ <;> tauto
    calc dupFlagsAux seen (x :: xs)
        = decide (x ∈ seen) :: dupFlagsAux (x :: seen) xs := rfl
      _ = decide (x ∈ seen) :: (List.range xs.length).map
            (fun i => decide (xs.getD i default ∈ (x :: seen) ++ xs.take i)) := by rw [ih]
      _ = _ := by
          rw [h2, show (x :: xs).length = xs.length + 1 from rfl, List.range_succ_eq_map,
            List.map_cons, List.map_map]
          simp

lemma duplicatedFlags_eq {α : Type} [DecidableEq α] [Inhabited α] (l : List α) :
    duplicatedFlags l =
      (List.range l.length).map (fun i => decide (l.getD i default ∈ l.take i)) := by
  have h := dupFlagsAux_eq ([] : List α) l
  simpa [duplicatedFlags] using h

lemma n_dup_of_eq_spec (df : Table) : n_dup_of df = dupCountSpec df.rows := by
  rw [n_dup_of, duplicatedFlags_eq, dupCountSpec, List.count_eq_countP, List.countP_map]
  refine List.countP_congr (fun i _ => ?_)
  simp

lemma charListLe_refl (a : List Char) : charListLe a a = true := by
  induction a with
  | nil => rfl
  | cons x xs ih => simp [charListLe, ih]

lemma charListLe_cons_iff (x y : Char) (xs ys : List Char) :
    charListLe (x :: xs) (y :: ys) = true ↔ x < y ∨ (x = y ∧ charListLe xs ys = true) := by
  by_cases h1 : x < y
  · simp [charListLe, h1]
  · by_cases h2 : x = y
    · simp [charListLe, h1, h2]
    · simp [charListLe, h1, h2]

lemma charListLe_total (a b : List Char) : charListLe a b = true ∨ charListLe b a = true := by
  induction a generalizing b with
  | nil => exact Or.inl rfl
  | cons x xs ih =>
    cases b with
    | nil => exact Or.inr rfl
    | cons y ys =>
      rcases lt_trichotomy x y with h | h | h
      · exact Or.inl ((charListLe_cons_iff x y xs ys).mpr (Or.inl h))
      · subst h
        rcases ih ys with h' | h'
        · exact Or.inl ((charListLe_cons_iff x x xs ys).mpr (Or.inr ⟨rfl, h'⟩))
        · exact Or.inr ((charListLe_cons_iff x x ys xs).mpr (Or.inr ⟨rfl, h'⟩))
      · exact Or.inr ((charListLe_cons_iff y x ys xs).mpr (Or.inl h))

lemma charListLe_trans (a b c : List Char)
    (h1 : charListLe a b = true) (h2 : charListLe b c = true) : charListLe a c = true := by
  induction a generalizing b c with
  | nil => rfl
  | cons x xs ih =>
    cases b with
    | nil => simp [charListLe] at h1
    | cons y ys =>
      cases c with
      | nil => simp [charListLe] at h2
      | cons z zs =>
        rcases (charListLe_cons_iff x y xs ys).mp h1 with hxy | ⟨hxy, hxs⟩ <;>
          rcases (charListLe_cons_iff y z ys zs).mp h2 with hyz | ⟨hyz, hys⟩
        · exact (charListLe_cons_iff x z xs zs).mpr (Or.inl (lt_trans hxy hyz))
        · exact (charListLe_cons_iff x z xs zs).mpr
            (Or.inl (lt_of_lt_of_le hxy (le_of_eq hyz)))
        · exact (charListLe_cons_iff x z xs zs).mpr
            (Or.inl (lt_of_le_of_lt (le_of_eq hxy) hyz))
        · exact (charListLe_cons_iff x z xs zs).mpr
            (Or.inr ⟨hxy.trans hyz, ih ys zs hxs hys⟩)

instance : IsTotal FileEntry nameLe := ⟨fun a b => charListLe_total a.name.data b.name.data⟩

instance : IsTrans FileEntry nameLe :=
  ⟨fun _ _ _ h1 h2 => charListLe_trans _ _ _ h1 h2⟩

lemma dropWhile_idem (p : Char → Bool) (l : List Char) :
    (l.dropWhile p).dropWhile p = l.dropWhile p := by
  induction l with
  | nil => rfl
  | cons x xs ih =>
    cases hp : p x
    · simp [List.dropWhile_cons, hp]
    · simp [List.dropWhile_cons, hp, ih]

lemma rstripChars_isPfx (l : List Char) : rstripChars l <+: l := by
  have hx : (rstripChars l).reverse <:+ l.reverse := by
    simpa [rstripChars] using @List.dropWhile_suffix Char l.reverse Char.isWhitespace
  exact List.reverse_suffix.mp hx

lemma mem_of_mem_rstripChars {a : Char} {l : List Char} (h : a ∈ rstripChars l) : a ∈ l :=
  (rstripChars_isPfx l).sublist.subset h

lemma mem_of_mem_stripChars {a : Char} {l : List Char} (h : a ∈ stripChars l) : a ∈ l := by
  have h1 : a ∈ lstripChars l := mem_of_mem_rstripChars h
  exact (@List.dropWhile_suffix Char l Char.isWhitespace).sublist.subset h1

lemma dropWhile_rstripChars (l : List Char) (hl : l.dropWhile Char.isWhitespace = l) :
    (rstripChars l).dropWhile Char.isWhitespace = rstripChars l := by
  obtain ⟨t, ht⟩ := rstripChars_isPfx l
  cases hr : rstripChars l with
  | nil => rfl
  | cons y ys =>
    have hlshape : l = y :: (ys ++ t) := by rw [← ht, hr]; simp
    have hpy : Char.isWhitespace y = false := by
      rw [hlshape] at hl
      cases hpy : Char.isWhitespace y
      · rfl
      · rw [List.dropWhile_cons, if_pos hpy] at hl
        have hlen : (List.dropWhile Char.isWhitespace (ys ++ t)).length = (ys ++ t).length + 1 := by
          rw [hl, List.length_cons]
        have hle := (@List.dropWhile_suffix Char (ys ++ t) Char.isWhitespace).sublist.length_le
        omega
    rw [List.dropWhile_cons, if_neg (by simp [hpy])]

lemma stripChars_idem (l : List Char) : stripChars (stripChars l) = stripChars l := by
  have hm : (lstripChars l).dropWhile Char.isWhitespace = lstripChars l :=
    dropWhile_idem Char.isWhitespace l
  have h1 : lstripChars (rstripChars (lstripChars l)) = rstripChars (lstripChars l) :=
    dropWhile_rstripChars (lstripChars l) hm
  show rstripChars (lstripChars (rstripChars (lstripChars l))) = rstripChars (lstripChars l)
  rw [h1]
  unfold rstripChars
  rw [List.reverse_reverse, dropWhile_idem]

lemma removeBomChars_stripChars (cs : List Char) :
    removeBomChars (stripChars (removeBomChars cs)) = stripChars (removeBomChars cs) := by
  refine List.filter_eq_self.mpr (fun a ha => ?_)
  have hmem : a ∈ removeBomChars cs := mem_of_mem_stripChars ha
  exact (List.mem_filter.mp hmem).2

lemma cleanLabel_idem (lb : PyLabel) : cleanLabel (cleanLabel lb) = cleanLabel lb := by
  show PyLabel.str ⟨stripChars (removeBomChars (stripChars (removeBomChars lb.chars)))⟩ =
    PyLabel.str ⟨stripChars (removeBomChars lb.chars)⟩
  rw [removeBomChars_stripChars, stripChars_idem]

lemma range_map_getD {α β : Type} (l : List α) (d : α) (g : α → β) :
    (List.range l.length).map (fun j => g (l.getD j d)) = l.map g := by
  induction l with
  | nil => rfl
  | cons x xs ih =>
    rw [show (x :: xs).length = xs.length + 1 from rfl, List.range_succ_eq_map,
      List.map_cons, List.map_map, List.map_cons]
    refine congrArg₂ List.cons (by simp) ?_
    rw [← ih]
    refine List.map_congr_left (fun j _ => ?_)
    simp [Function.comp]

/-- The 4-row table of the spec example: row 2 repeats row 0. -/
def dupExampleTable : Table :=
  { cols := [
      { label := .str "A", dtype := .int64,
        values := [.num 1, .num 2, .num 1, .num 3] },
      { label := .str "B", dtype := .int64,
        values := [.num 10, .num 20, .num 10, .num 40] } ] }

/-! ## Claims -/

/-- C1. For every table, `basic_audit` returns `n_duplicates` equal to
the count of fully-duplicate rows (all columns equal, first occurrence
not counted) and `duplicate_rate` equal to `n_duplicates` divided by the
row count, with `duplicate_rate = 0` on a zero-row table (the division
is never attempted there); on a table with one fully duplicated row out
of 4 it returns `n_duplicates = 1` and `duplicate_rate = 0.25`. -/
theorem basic_audit_duplicates_spec (df : Table) (label_col : String) (k : Nat) :
    (basic_audit df label_col k).n_duplicates = dupCountSpec df.rows ∧
    (basic_audit df label_col k).duplicate_rate =
      (if df.nRows = 0 then 0
       else ((basic_audit df label_col k).n_duplicates : ℚ) / (df.nRows : ℚ)) ∧
    (basic_audit dupExampleTable "Label" 15).n_duplicates = 1 ∧
    (basic_audit dupExampleTable "Label" 15).duplicate_rate = 1 / 4 := by
  refine ⟨n_dup_of_eq_spec df, rfl, by decide, ?_⟩
  show dup_rate_of dupExampleTable = 1 / 4
  have hn : dupExampleTable.nRows = 4 := rfl
  have hd : n_dup_of dupExampleTable = 1 := by decide
  unfold dup_rate_of
  rw [hn, hd]
  norm_num

/-- The column set of the `find_suspicious_columns` spec example. -/
def suspiciousExampleTable : Table :=
  { cols := [
      { label := .str "Unnamed: 0", dtype := .obj, values := [] },
      { label := .str " Flow ID", dtype := .obj, values := [] },
      { label := .str "Flow ID", dtype := .obj, values := [] },
      { label := .str "\uFEFFLabel", dtype := .obj, values := [] } ] }

/-- C2 counterexample: on columns `["Unnamed: 0", " Flow ID", "Flow ID",
"\uFEFFLabel"]` the code returns `duplicate_columns = []`, not
`["Flow ID"]`: `Index.duplicated` compares labels for exact equality,
and `" Flow ID"` (leading space) and `"Flow ID"` are distinct labels, so
no label occurs twice. -/
theorem find_suspicious_columns_example_counterexample :
    ¬ ((find_suspicious_columns suspiciousExampleTable).duplicate_columns
        = [PyLabel.str "Flow ID"]) := by decide

/-- C2 (amended): `find_suspicious_columns` returns four independently
computed lists, and on the example columns it returns
`unnamed_columns = ["Unnamed: 0"]`, `whitespace_columns = [" Flow ID"]`,
`bom_columns = ["\uFEFFLabel"]`, and `duplicate_columns = []` (the two
Flow-ID labels differ by their leading space, so neither is an exact
duplicate of the other). -/
theorem find_suspicious_columns_example :
    find_suspicious_columns suspiciousExampleTable =
      { unnamed_columns := [.str "Unnamed: 0"],
        duplicate_columns := [],
        whitespace_columns := [.str " Flow ID"],
        bom_columns := [.str "\uFEFFLabel"] } := by decide

/-- C3. For every table, `clean_column_names` returns a table with the
same dtypes and cell data whose column names are the input's names
coerced to text, with every occurrence of U+FEFF removed and then
leading/trailing whitespace stripped; every resulting label is text
(so non-text labels cannot raise) and contains no BOM character. -/
theorem clean_column_names_spec (df : Table) :
    (clean_column_names df).cols.map (fun c => c.dtype) = df.cols.map (fun c => c.dtype) ∧
    (clean_column_names df).cols.map (fun c => c.values) = df.cols.map (fun c => c.values) ∧
    (clean_column_names df).cols.map (fun c => c.label) =
      df.cols.map (fun c => PyLabel.str ⟨stripChars (removeBomChars c.label.chars)⟩) ∧
    ∀ c ∈ (clean_column_names df).cols,
      c.label.isText = true ∧ '\uFEFF' ∉ c.label.chars := by
  refine ⟨?_, ?_, ?_, ?_⟩
  · simp [clean_column_names]
  · simp [clean_column_names]
  · simp [clean_column_names, cleanLabel]
  · intro c hc
    simp only [clean_column_names, List.mem_map] at hc
    obtain ⟨c0, _, rfl⟩ := hc
    refine ⟨rfl, fun hmem => ?_⟩
    have hmem' : '\uFEFF' ∈ removeBomChars c0.label.chars := mem_of_mem_stripChars hmem
    simpa [removeBomChars] using (List.mem_filter.mp hmem').2

/-- C4. `clean_column_names` is idempotent: applying it twice yields the
same table as applying it once.  (The model is purely functional and
the source copies the dataframe before reassigning its columns, so the
input is never mutated.) -/
theorem clean_column_names_idem (df : Table) :
    clean_column_names (clean_column_names df) = clean_column_names df := by
  unfold clean_column_names
  rw [List.map_map]
  refine congrArg Table.mk (List.map_congr_left (fun c _ => ?_))
  simp [Function.comp, cleanLabel_idem]

/-- One-column table whose name carries BOM characters and padding. -/
def messyTable : Table :=
  { cols := [ { label := .str "  \uFEFFFlow\uFEFF ID  ", dtype := .obj, values := [] } ] }

/-- Witness for `clean_column_names_spec` at a concrete table: the name
`"  \uFEFFFlow\uFEFF ID  "` cleans to `"Flow ID"`, which is text and BOM-free. -/
theorem clean_column_names_spec_witness :
    (clean_column_names messyTable).cols.map (fun c => c.label) = [PyLabel.str "Flow ID"] ∧
    '\uFEFF' ∉ (PyLabel.str "Flow ID").chars := by
  have h := clean_column_names_spec messyTable
  refine ⟨h.2.2.1.trans (by decide), ?_⟩
  exact (h.2.2.2 { label := .str "Flow ID", dtype := .obj, values := [] } (by decide)).2

/-- One-column table with a non-text (integer) label, as used by the
C10 witness. -/
def intLabelTable : Table :=
  { cols := [ { label := .int 7, dtype := .int64, values := [.num 1] } ] }

/-- C10. In `find_suspicious_columns`, a non-text column label is never
reported in `whitespace_columns` or `bom_columns` (both checks are
guarded by `isinstance(c, str)`), and it belongs to `unnamed_columns`
exactly when its text form — `str(c)`, which exists and can be
lower-cased for every label — lower-cases to something starting with
`"unnamed"`. -/
theorem find_suspicious_columns_nontext (df : Table) (c : Col) (hc : c ∈ df.cols)
    (hnt : c.label.isText = false) :
    c.label ∉ (find_suspicious_columns df).whitespace_columns ∧
    c.label ∉ (find_suspicious_columns df).bom_columns ∧
    (c.label ∈ (find_suspicious_columns df).unnamed_columns ↔
      List.isPrefixOf "unnamed".data (c.label.chars.map Char.toLower) = true) := by
  have hws : (find_suspicious_columns df).whitespace_columns =
      (df.cols.map (fun c => c.label)).filter (fun lb => match lb with
        | .str s => decide (s.data ≠ stripChars s.data)
        | _ => false) := rfl
  have hbom : (find_suspicious_columns df).bom_columns =
      (df.cols.map (fun c => c.label)).filter (fun lb => match lb with
        | .str s => s.data.contains '\uFEFF'
        | _ => false) := rfl
  have hun : (find_suspicious_columns df).unnamed_columns =
      (df.cols.map (fun c => c.label)).filter
        (fun lb => List.isPrefixOf "unnamed".data (lb.chars.map Char.toLower)) := rfl
  refine ⟨?_, ?_, ?_⟩
  · intro h
    rw [hws] at h
    have h' := (List.mem_filter.mp h).2
    cases hcl : c.label with
    | str s => rw [hcl] at hnt; simp [PyLabel.isText] at hnt
    | int n => rw [hcl] at h'; simp at h'
  · intro h
    rw [hbom] at h
    have h' := (List.mem_filter.mp h).2
    cases hcl : c.label with
    | str s => rw [hcl] at hnt; simp [PyLabel.isText] at hnt
    | int n => rw [hcl] at h'; simp at h'
  · constructor
    · intro h
      rw [hun] at h
      exact (List.mem_filter.mp h).2
    · intro h
      rw [hun]
      exact List.mem_filter.mpr ⟨List.mem_map_of_mem (fun c => c.label) hc, h⟩

/-- Witness for C10 at the concrete label `7`: an integer label is
reported in neither the whitespace nor the BOM list, and `"7"` does not
start with `"unnamed"`, so it is not reported as unnamed either. -/
theorem find_suspicious_columns_nontext_witness :
    PyLabel.int 7 ∉ (find_suspicious_columns intLabelTable).whitespace_columns ∧
    PyLabel.int 7 ∉ (find_suspicious_columns intLabelTable).bom_columns ∧
    PyLabel.int 7 ∉ (find_suspicious_columns intLabelTable).unnamed_columns := by
  have h := find_suspicious_columns_nontext intLabelTable
    { label := .int 7, dtype := .int64, values := [.num 1] }
    (by simp [intLabelTable]) rfl
  exact ⟨h.1, h.2.1, fun hm => absurd (h.2.2.mp hm) (by decide)⟩

/-- C8. For every table, `basic_audit`'s `missing_top` holds one entry
per column up to the `missing_top_k` cutoff, is sorted by percentage in
descending order, and each entry pairs a column's label with its
missing-value percentage `null_count / row_count * 100`. -/
theorem basic_audit_missing_top_spec (df : Table) (label_col : String) (k : Nat) :
    ((basic_audit df label_col k).missing_top).length = min k df.cols.length ∧
    List.Pairwise pctGe ((basic_audit df label_col k).missing_top) ∧
    ∀ e ∈ (basic_audit df label_col k).missing_top, ∃ c ∈ df.cols,
      e = (c.label, 100 * (((c.values.countP (fun v => v = Cell.na)) : ℚ) / (df.nRows : ℚ))) := by
  have hperm := List.perm_insertionSort pctGe
    (df.cols.map (fun c => (c.label, missingPct df.nRows c)))
  have hsort : List.Pairwise pctGe (missing_sorted_of df) :=
    List.sorted_insertionSort pctGe _
  refine ⟨?_, ?_, ?_⟩
  · show ((missing_sorted_of df).take k).length = min k df.cols.length
    rw [List.length_take, show (missing_sorted_of df).length = df.cols.length from by
      rw [show (missing_sorted_of df).length =
          (df.cols.map (fun c => (c.label, missingPct df.nRows c))).length from
        hperm.length_eq, List.length_map]]
  · exact hsort.sublist (List.take_sublist k _)
  · intro e he
    have he1 : e ∈ missing_sorted_of df := List.mem_of_mem_take he
    have he2 : e ∈ df.cols.map (fun c => (c.label, missingPct df.nRows c)) :=
      hperm.subset he1
    obtain ⟨c, hc, rfl⟩ := List.mem_map.mp he2
    exact ⟨c, hc, rfl⟩

/-- One-column, one-row table whose single cell is missing. -/
def oneColTable : Table :=
  { cols := [ { label := .str "A", dtype := .float64, values := [Cell.na] } ] }

/-- Witness for `basic_audit_missing_top_spec` at a concrete table: the
single fully-missing column yields a one-entry ranking whose percentage
satisfies the `null_count / row_count * 100` formula. -/
theorem basic_audit_missing_top_spec_witness :
    ((basic_audit oneColTable "Label" 15).missing_top).length = 1 ∧
    (∃ c ∈ oneColTable.cols,
      (PyLabel.str "A", missingPct oneColTable.nRows
        { label := .str "A", dtype := .float64, values := [Cell.na] }) =
      (c.label, 100 * (((c.values.countP (fun v => v = Cell.na)) : ℚ) /
        (oneColTable.nRows : ℚ)))) := by
  have h := basic_audit_missing_top_spec oneColTable "Label" 15
  refine ⟨h.1.trans (by decide), ?_⟩
  exact h.2.2 _ (List.mem_cons_self _ _)

/-- Table with 30 numeric columns and zero rows, on which the selected
numeric sub-table is empty by pandas' `.empty` check. -/
def t30empty : Table :=
  { cols := (List.range 30).map (fun i =>
      { label := .int i, dtype := .float64, values := [] }) }

/-- Table with 30 numeric columns and one row. -/
def t30one : Table :=
  { cols := (List.range 30).map (fun i =>
      { label := .int i, dtype := .float64, values := [.num 0] }) }

/-- C9 counterexample: a table with 30 numeric columns but zero rows
makes the selected numeric sub-table empty (`num_df.empty` is true when
either axis has length 0), so `numeric_summary` returns the empty
result, not 25 rows. -/
theorem numeric_summary_zero_rows_counterexample :
    (numericCols t30empty).length = 30 ∧
    ¬ ((numeric_summary t30empty 25).length = 25) := by
  constructor
  · decide
  · decide

/-- C9 (amended). `numeric_summary` selects only numeric-typed columns
and returns the empty result when none exist; it also returns the empty
result when the table has zero rows (the emptiness check is on the
selected sub-table, which is empty when either axis is zero); otherwise
it returns one statistics row per numeric column (the column's
`describe` statistics), keeping at most the first `max_cols` rows; on a
table with 30 numeric columns and at least one row it returns exactly
25 rows under the default `max_cols`. -/
theorem numeric_summary_spec (df : Table) (max_cols : Nat) :
    (numericCols df = [] → numeric_summary df max_cols = []) ∧
    (Table.nRows { cols := numericCols df } = 0 → numeric_summary df max_cols = []) ∧
    (numericCols df ≠ [] → Table.nRows { cols := numericCols df } ≠ 0 →
      (numeric_summary df max_cols).length = min max_cols (numericCols df).length) ∧
    (∀ e ∈ numeric_summary df max_cols, ∃ c ∈ df.cols,
      c.dtype.isNumeric = true ∧ e = (c.label, describeCol c)) ∧
    (numericCols t30one).length = 30 ∧
    (numeric_summary t30one 25).length = 25 := by
  refine ⟨?_, ?_, ?_, ?_, by decide, by decide⟩
  · intro h; simp [numeric_summary, h]
  · intro h; simp [numeric_summary, h]
  · intro h1 h2
    rw [show numeric_summary df max_cols =
        ((numericCols df).map (fun c => (c.label, describeCol c))).take max_cols from by
      simp [numeric_summary, h1, h2]]
    rw [List.length_take, List.length_map]
  · intro e he
    by_cases hcond : numericCols df = [] ∨ Table.nRows { cols := numericCols df } = 0
    · rw [show numeric_summary df max_cols = [] from by simp [numeric_summary, hcond]] at he
      simp at he
    · rw [show numeric_summary df max_cols =
          ((numericCols df).map (fun c => (c.label, describeCol c))).take max_cols from by
        simp only [numeric_summary, if_neg hcond]] at he
      obtain ⟨c, hc, rfl⟩ := List.mem_map.mp (List.mem_of_mem_take he)
      have hc' := List.mem_filter.mp hc
      exact ⟨c, hc'.1, hc'.2, rfl⟩

/-- Witness for C9 on a concrete table: `dupExampleTable` has two
numeric columns and four rows, so `numeric_summary` keeps both rows. -/
theorem numeric_summary_spec_witness :
    (numeric_summary dupExampleTable 25).length = 2 := by
  have h := (numeric_summary_spec dupExampleTable 25).2.2.1 (by decide) (by decide)
  exact h.trans (by decide)

lemma round2_intCast (n : ℤ) : round2 ((n : ℚ)) = (n : ℚ) := by
  have h0 : ((100 : ℚ) * n) = ((100 * n : ℤ) : ℚ) := by push_cast; ring
  rw [round2, roundHalfEven, h0, Int.floor_intCast]
  rw [if_pos (by simp)]
  push_cast
  ring

/-- The directory of the `list_csv_files` spec example: files `b.csv`
(2 MB) and `a.csv` (1 MB), listed out of order. -/
def exEntries : List FileEntry :=
  [⟨"b.csv", 2097152⟩, ⟨"a.csv", 1048576⟩]

/-- C5. `list_csv_files` fails with `NotFoundError` on a missing
directory and on a directory without CSV files; on success it returns
one row per discovered `*.csv` entry, sorted lexicographically by name,
each with `size_mb = round2 (bytes / 1024²)`; on the example directory
it returns `a.csv` (1.0 MB) then `b.csv` (2.0 MB). -/
theorem list_csv_files_spec :
    list_csv_files none = .error Err.notFound ∧
    (∀ es : List FileEntry, es.filter (fun f => strEndsWith f.name ".csv") = [] →
      list_csv_files (some es) = .error Err.notFound) ∧
    (∀ es rows, list_csv_files (some es) = .ok rows →
      List.Pairwise (fun a b : FileRow => charListLe a.file.data b.file.data = true) rows ∧
      rows.length = (es.filter (fun f => strEndsWith f.name ".csv")).length ∧
      ∀ r ∈ rows, ∃ f ∈ es, strEndsWith f.name ".csv" = true ∧ r.file = f.name ∧
        r.size_mb = round2 ((f.size : ℚ) / (1024 : ℚ) ^ 2)) ∧
    list_csv_files (some exEntries) = .ok [⟨"a.csv", 1⟩, ⟨"b.csv", 2⟩] := by
  refine ⟨rfl, ?_, ?_, ?_⟩
  · intro es h
    simp [list_csv_files, h]
  · intro es rows h
    by_cases hemp :
        List.insertionSort nameLe (es.filter (fun f => strEndsWith f.name ".csv")) = []
    · simp [list_csv_files, hemp] at h
    · have h' : rows = (List.insertionSort nameLe
          (es.filter (fun f => strEndsWith f.name ".csv"))).map
          (fun f => (⟨f.name, round2 ((f.size : ℚ) / (1024 : ℚ) ^ 2)⟩ : FileRow)) := by
        simp only [list_csv_files, if_neg hemp, Except.ok.injEq] at h
        exact h.symm
      subst h'
      have hsort : List.Pairwise nameLe (List.insertionSort nameLe
          (es.filter (fun f => strEndsWith f.name ".csv"))) :=
        List.sorted_insertionSort nameLe _
      refine ⟨List.Pairwise.map _ (fun a b hab => hab) hsort, ?_, ?_⟩
      · rw [List.length_map, (List.perm_insertionSort nameLe _).length_eq]
      · intro r hr
        obtain ⟨f, hf, rfl⟩ := List.mem_map.mp hr
        have hf' := List.mem_filter.mp ((List.perm_insertionSort nameLe _).subset hf)
        exact ⟨f, hf'.1, hf'.2, rfl, rfl⟩
  · have hsorted : List.insertionSort nameLe
        (exEntries.filter (fun f => strEndsWith f.name ".csv")) =
        [⟨"a.csv", 1048576⟩, ⟨"b.csv", 2097152⟩] := by decide
    have h1 : round2 ((1048576 : ℚ) / (1024 : ℚ) ^ 2) = 1 := by
      rw [show ((1048576 : ℚ) / (1024 : ℚ) ^ 2) = ((1 : ℤ) : ℚ) by norm_num,
        round2_intCast]
      norm_num
    have h2 : round2 ((2097152 : ℚ) / (1024 : ℚ) ^ 2) = 2 := by
      rw [show ((2097152 : ℚ) / (1024 : ℚ) ^ 2) = ((2 : ℤ) : ℚ) by norm_num,
        round2_intCast]
      norm_num
    simp only [list_csv_files, hsorted]
    simp [h1, h2]

/-- Witness for C5: the success conjunct applied to the concrete example
directory, and the no-CSV conjunct applied to an empty directory. -/
theorem list_csv_files_spec_witness :
    List.Pairwise (fun a b : FileRow => charListLe a.file.data b.file.data = true)
      [(⟨"a.csv", 1⟩ : FileRow), ⟨"b.csv", 2⟩] ∧
    list_csv_files (some []) = .error Err.notFound :=
  ⟨(list_csv_files_spec.2.2.1 exEntries _ list_csv_files_spec.2.2.2).1,
   list_csv_files_spec.2.1 [] rfl⟩

/-- C6. `pick_file` fails with `NotFoundError` on a missing directory
(globbing it discovers nothing) and on a directory without CSV files;
when `preferred_name` is given (non-empty) and exists in the directory
it is returned regardless of its extension; otherwise the result is the
lexicographically least discovered CSV. -/
theorem pick_file_spec :
    (∀ p, pick_file none p = .error Err.notFound) ∧
    (∀ es p, es.filter (fun f => strEndsWith f.name ".csv") = [] →
      pick_file (some es) p = .error Err.notFound) ∧
    (∀ es p, globCsvSorted (some es) ≠ [] → p ≠ "" → pathExists (some es) p = true →
      pick_file (some es) (some p) = .ok p) ∧
    (∀ (d : Dir) f fs, globCsvSorted d = f :: fs →
      pick_file d none = .ok f.name ∧ ∀ e ∈ globCsvSorted d, nameLe f e) ∧
    (∀ (d : Dir) s f fs, globCsvSorted d = f :: fs →
      s = "" ∨ pathExists d s = false → pick_file d (some s) = .ok f.name) := by
  refine ⟨fun p => rfl, ?_, ?_, ?_, ?_⟩
  · intro es p h
    simp [pick_file, globCsvSorted, h]
  · intro es p hne hp hex
    cases heq : globCsvSorted (some es) with
    | nil => exact absurd heq hne
    | cons f fs =>
      unfold pick_file
      rw [heq]
      simp [hp, hex]
  · intro d f fs heq
    constructor
    · unfold pick_file
      rw [heq]
    · intro e he
      have hs : List.Pairwise nameLe (globCsvSorted d) := by
        cases d with
        | none => simp [globCsvSorted] at heq
        | some es => exact List.sorted_insertionSort nameLe _
      rw [heq] at hs he
      rcases List.mem_cons.mp he with rfl | hmem
      · exact charListLe_refl _
      · exact (List.pairwise_cons.mp hs).1 e hmem
  · intro d s f fs heq hcond
    unfold pick_file
    rw [heq]
    rcases hcond with rfl | hfalse
    · simp
    · simp [hfalse]

/-- Directory used by the C6 witness: `data.bin` is not a CSV but can
still be picked by name; `z.csv` is the only discovered CSV. -/
def exDir6 : List FileEntry :=
  [⟨"data.bin", 5⟩, ⟨"z.csv", 1⟩]

/-- Witness for C6: the preferred override returns a non-CSV file that
exists, and with no preferred name the first discovered CSV wins. -/
theorem pick_file_spec_witness :
    pick_file (some exDir6) (some "data.bin") = .ok "data.bin" ∧
    pick_file (some exDir6) none = .ok "z.csv" := by
  constructor
  · exact pick_file_spec.2.2.1 exDir6 "data.bin" (by decide) (by decide) (by decide)
  · exact (pick_file_spec.2.2.2.1 (some exDir6) ⟨"z.csv", 1⟩ [] (by decide)).1

/-- The 1000-row CSV file of the C7 spec example. -/
def bigCsv : CsvFile :=
  { header := [" Flow ID ", "Label"], rows := List.replicate 1000 ["x", "y"] }

/-- C7. `load_peek` fails with `NotFoundError` when the path does not
exist; otherwise every column name is the whitespace-stripped header
cell and every column holds `min nrows total` parsed data rows; with
`nrows = 10` on a 1000-row file each column holds exactly 10 rows. -/
theorem load_peek_spec :
    (∀ n, load_peek none n = .error Err.notFound) ∧
    (∀ f n, (load_peek (some f) n).map (fun df => df.cols.map (fun c => c.label)) =
      .ok (f.header.map (fun h => PyLabel.str (pyStrip h)))) ∧
    (∀ f n, (load_peek (some f) n).map (fun df => df.cols.map (fun c => c.values.length)) =
      .ok (List.replicate f.header.length (min n f.rows.length))) ∧
    (load_peek (some bigCsv) 10).map Table.nRows = .ok 10 ∧
    (load_peek (some bigCsv) 10).map (fun df => df.cols.map (fun c => c.label)) =
      .ok [.str "Flow ID", .str "Label"] := by
  refine ⟨fun n => rfl, ?_, ?_, ?_, ?_⟩
  · intro f n
    simp only [load_peek, Except.map, stripColumnNames, read_csv, List.map_map,
      Except.ok.injEq]
    rw [← range_map_getD f.header "" (fun h => PyLabel.str (pyStrip h))]
    exact List.map_congr_left (fun j _ => rfl)
  · intro f n
    simp only [load_peek, Except.map, stripColumnNames, read_csv, List.map_map,
      Except.ok.injEq]
    calc ((List.range f.header.length).map _)
        = (List.range f.header.length).map (fun _ => (f.rows.take n).length) :=
          List.map_congr_left (fun j _ => by simp [Function.comp])
      _ = List.replicate f.header.length (min n f.rows.length) := by
          rw [List.map_const', List.length_range, List.length_take]
  · rfl
  · rfl

end LogUtils
